import Mathlib

/-!
# Verification of `go-missing/promise` (src/promise/promise.go)

Shallow embedding of the promise package. Concurrency is modelled by
making the scheduler-dependent data explicit:

* A Go `chan struct{}` used purely as a completion signal is a `Chan`:
  an allocation identity plus a closed flag.
* A `Promise[T]` struct is the `Promise` structure below, with Go's
  `error` interface value embedded as `Option GoErr` (`none` = nil).
* The goroutine spawned by `New` is modelled by `runTask`, which maps the
  initial (pending) promise state to the terminal state reached after the
  task body returns, following the `if err != nil { p.reject(err) } else
  { p.resolve(v) }` branch in the source.
* For `Race` and `All`, the wall-clock order in which the per-input
  observer goroutines deliver indices into the shared buffered channel is
  an explicit parameter `order : List Nat` (the successive values read
  from the channel). Theorems quantify over it.
* Go's implicit zero value for a type parameter `T` is an explicit
  argument `z : T` wherever the source relies on zero initialization
  (`Promise[T]{}`, `var t T`, `make([]T, n)`).
* `make(chan struct{})` allocating a fresh channel is modelled by an
  explicit identity argument `chId`; the package-level `closedChan`
  singleton has identity 0 and is created closed.
-/

/-- Model of a Go `error` interface value that is non-nil: either the
distinguished `os.ErrDeadlineExceeded` sentinel, or an ordinary error
built from a message (`errors.New`). A nillable error is `Option GoErr`. -/
inductive GoErr where
  | deadlineExceeded : GoErr
  | errorString : String → GoErr
deriving DecidableEq, Repr

/-- Model of a Go `chan struct{}` used as a completion signal: an
allocation identity plus whether the channel has been closed. -/
structure Chan where
  id : Nat
  closed : Bool
deriving DecidableEq, Repr

/-- Receiving from a completion channel blocks exactly while the channel
is not yet closed; a receive on a closed channel returns immediately. -/
def Chan.recvBlocks (c : Chan) : Bool :=
  !c.closed

/-- `var closedChan = make(chan struct{})` together with the package
`init` that runs `close(closedChan)`: a single package-level channel,
already closed at initialization. -/
def closedChan : Chan :=
  { id := 0, closed := true }

/-- The `Promise[T]` struct of the source: cached value, cached error,
completion flag, and the completion channel. -/
structure Promise (T : Type) where
  value : T
  err : Option GoErr
  finished : Bool
  done : Chan
deriving DecidableEq, Repr

namespace Promise

variable {T : Type}

/-- Internal `func (p *Promise[T]) resolve(v T)`: a no-op when already
finished, otherwise caches the value, marks finished and closes the
completion channel. -/
def resolve (p : Promise T) (v : T) : Promise T :=
  if p.finished then p
  else { p with value := v, finished := true, done := { p.done with closed := true } }

/-- Internal `func (p *Promise[T]) reject(err error)`: a no-op when
already finished, otherwise caches the error, marks finished and closes
the completion channel. -/
def reject (p : Promise T) (e : GoErr) : Promise T :=
  if p.finished then p
  else { p with err := some e, finished := true, done := { p.done with closed := true } }

/-- `func (p *Promise[T]) Await() (T, error)`: after the completion
channel fires, returns the cached value and error. -/
def await (p : Promise T) : T × Option GoErr :=
  (p.value, p.err)

/-- Whether `Await` would block on this promise state: it blocks exactly
while `<-p.Done()` blocks, i.e. while the completion channel is open. -/
def awaitBlocks (p : Promise T) : Bool :=
  p.done.recvBlocks

/-- `func (p *Promise[T]) Done() chan struct{}`: returns the promise's
completion channel. -/
def Done (p : Promise T) : Chan :=
  p.done

end Promise

/-- The pending promise built inside `New` before its goroutine runs:
`Promise[T]{}` zero-initializes `value` (to the explicit zero value `z`),
`err` (nil) and `finished` (false); `p.done = make(chan struct{})`
allocates a fresh, open channel with identity `chId`. -/
def newPromiseInit {T : Type} (z : T) (chId : Nat) : Promise T :=
  { value := z, err := none, finished := false, done := { id := chId, closed := false } }

/-- The body of the goroutine spawned by `New`: run `fn`, then
`if err != nil { p.reject(err) } else { p.resolve(v) }`. Maps the pending
state to the terminal state of the promise. -/
def runTask {T : Type} (p : Promise T) (fn : Unit → T × Option GoErr) : Promise T :=
  match fn () with
  | (v, none) => p.resolve v
  | (_, some e) => p.reject e

/-- `func New[T any](fn func() (T, error)) *Promise[T]`, observed at its
terminal state: the pending promise after its single spawned task has
run `fn` and completed it. -/
def New {T : Type} (z : T) (chId : Nat) (fn : Unit → T × Option GoErr) : Promise T :=
  runTask (newPromiseInit z chId) fn

/-- `func Resolve[T any](val T) *Promise[T]`: an already-finished promise
carrying the value, with the shared pre-closed channel; `err` stays nil. -/
def Resolve {T : Type} (v : T) : Promise T :=
  { value := v, err := none, finished := true, done := closedChan }

/-- `func Reject[T any](err error) *Promise[T]`: an already-finished
promise carrying the error, with the shared pre-closed channel; `value`
stays the zero value `z`. -/
def Reject {T : Type} (z : T) (e : GoErr) : Promise T :=
  { value := z, err := some e, finished := true, done := closedChan }

/-- The `go` statements a constructor executes, as the list of spawned
task bodies. `New` spawns exactly one; paired with the promise handle. -/
def NewC {T : Type} (z : T) (chId : Nat) (fn : Unit → T × Option GoErr) :
    Promise T × List (Unit → T × Option GoErr) :=
  (New z chId fn, [fn])

/-- `Resolve` executes no `go` statement: no task is scheduled. -/
def ResolveC {T : Type} (v : T) : Promise T × List (Unit → T × Option GoErr) :=
  (Resolve v, [])

/-- `Reject` executes no `go` statement: no task is scheduled. -/
def RejectC {T : Type} (z : T) (e : GoErr) : Promise T × List (Unit → T × Option GoErr) :=
  (Reject z e, [])

/-- `func (p *Promise[T]) Then(fn func(T, error) (T, error)) *Promise[T]`:
builds a new promise via `New` whose task waits on the parent's
completion channel and then applies `fn` to the parent's cached value and
error. Here `p` is the parent's terminal state (the wait on `p.Done()`
guarantees the task reads the terminal fields). -/
def Promise.Then {T : Type} (p : Promise T) (z : T) (chId : Nat)
    (fn : T × Option GoErr → T × Option GoErr) : Promise T :=
  New z chId (fun _ => fn (p.value, p.err))

/-!
## Claims C1 and C2
-/

/-- **C1.** `Resolve(v)` schedules no task and returns a promise already
finished with the package-level pre-closed channel, so `Await` returns
`(v, nil)` without blocking; `Reject(e)` likewise yields `(zero, e)`
without blocking. -/
theorem C1_immediate_constructors {T : Type} (v z : T) (e : GoErr) :
    (ResolveC v).2 = [] ∧
    (Resolve v).finished = true ∧
    (Resolve v).done = closedChan ∧
    (Resolve v).awaitBlocks = false ∧
    (Resolve v).await = (v, none) ∧
    (RejectC z e).2 = [] ∧
    (Reject z e).finished = true ∧
    (Reject z e).done = closedChan ∧
    (Reject z e).awaitBlocks = false ∧
    (Reject z e).await = (z, some e) := by
  refine ⟨rfl, rfl, rfl, rfl, rfl, rfl, rfl, rfl, rfl, rfl⟩

/-- **C2.** Once a promise is finished, any further call to the internal
`resolve` or `reject` routine returns the state unchanged: same cached
value, cached error and completion channel. -/
theorem C2_second_completion_noop {T : Type} (v : T) (e : GoErr) (p : Promise T)
    (h : p.finished = true) :
    p.resolve v = p ∧ p.reject e = p := by
  constructor
  · unfold Promise.resolve
    simp [h]
  · unfold Promise.reject
    simp [h]

/-- Witness for C2 at a concrete finished promise. -/
theorem C2_second_completion_noop_witness :
    (Resolve (3 : Nat)).resolve 5 = Resolve 3 ∧
      (Resolve (3 : Nat)).reject (GoErr.errorString "x") = Resolve 3 :=
  C2_second_completion_noop 5 (GoErr.errorString "x") (Resolve 3) rfl

/-!
## Claim C3: `Then`

The claim says the promise returned by `p.Then(fn)` completes with
*exactly* `fn` applied to the parent's terminal pair. `Then` routes the
transform's return through `New`, and `New` rejects (discarding the
returned value, leaving the value slot zero) whenever the returned error
is non-nil — so when `fn` returns `(5, err)` the chained promise awaits
to `(0, err)`, not `(5, err)`.
-/

/-- A transform that returns a non-zero value together with a non-nil
error; used to exhibit `Then` dropping the value. -/
def c3fn : Nat × Option GoErr → Nat × Option GoErr :=
  fun _ => (5, some (GoErr.errorString "boom"))

/-- **C3 counterexample.** With parent `Resolve 1` and transform
`c3fn = fun _ => (5, boom)`, the chained promise awaits to `(0, boom)`,
which differs from `c3fn` applied to the parent's terminal pair. -/
theorem C3_then_counterexample :
    ((Resolve (1 : Nat)).Then 0 7 c3fn).await ≠
      c3fn ((Resolve (1 : Nat)).value, (Resolve (1 : Nat)).err) := by
  decide

/-- **C3 amended.** `p.Then(fn)` completes with `fn` applied to the
parent's terminal pair, filtered through `New`'s branch: the pair itself
when its error is nil, and `(zero, its error)` otherwise; in particular
the `"Hello" → " World" → "!"` chain awaits to `("Hello World!", nil)`. -/
theorem C3_then_amended :
    (∀ (T : Type) (z : T) (chId : Nat) (p : Promise T)
        (fn : T × Option GoErr → T × Option GoErr),
      (p.Then z chId fn).await =
        match fn (p.value, p.err) with
        | (v, none) => (v, none)
        | (_, some e) => (z, some e)) ∧
    (((New "" 1 (fun _ => ("Hello", none))).Then "" 2
        (fun pr => (pr.1 ++ " World", none))).Then "" 3
        (fun pr => (pr.1 ++ "!", none))).await = ("Hello World!", none) := by
  constructor
  · intro T z chId p fn
    unfold Promise.Then New runTask newPromiseInit Promise.resolve Promise.reject Promise.await
    rcases hfn : fn (p.value, p.err) with ⟨v, e⟩
    cases e <;> simp [hfn]
  · rfl

/-!
## Claims C7, C8, C9
-/

/-- `func Timeout[T any](duration time.Duration) *Promise[T]`: a promise
built by `New` whose task does `var t T; time.Sleep(duration); return t,
os.ErrDeadlineExceeded`. Durations are modelled in abstract time units;
`time.Sleep(d)` suspends for at least `d`, so the task finishes `d +
sched` units after creation, where `sched ≥ 0` is the scheduler's extra
delay. The second component is the elapsed time from creation to the
promise's completion. -/
def Timeout {T : Type} (z : T) (chId : Nat) (d sched : Nat) : Promise T × Nat :=
  (New z chId (fun _ => (z, some GoErr.deadlineExceeded)), d + sched)

/-- **C7.** `Timeout(d)` awaits to the zero value together with the
distinguished deadline-exceeded error (distinct from every ordinary
error, testable by equality), and its completion time is at least `d`
after creation. -/
theorem C7_timeout {T : Type} (z : T) (chId d sched : Nat) :
    (Timeout z chId d sched).1.await = (z, some GoErr.deadlineExceeded) ∧
    d ≤ (Timeout z chId d sched).2 ∧
    (∀ msg, GoErr.deadlineExceeded ≠ GoErr.errorString msg) := by
  refine ⟨rfl, Nat.le_add_right d sched, ?_⟩
  intro msg h
  cases h

/-- **C8.** When the unit of work returns a value `v` together with a
non-nil error `e`, `New(fn).Await()` returns the zero value and `e`: the
value accompanying a non-nil error is discarded and the value slot stays
zero. -/
theorem C8_new_discards_value_on_error {T : Type} (z v : T) (chId : Nat) (e : GoErr)
    (fn : Unit → T × Option GoErr) (hfn : fn () = (v, some e)) :
    (New z chId fn).await = (z, some e) := by
  unfold New runTask
  rw [hfn]
  rfl

/-- Witness for C8 at a concrete unit of work returning `(7, boom)`. -/
theorem C8_new_discards_value_on_error_witness :
    (New (0 : Nat) 4 (fun _ => (7, some (GoErr.errorString "boom")))).await =
      (0, some (GoErr.errorString "boom")) :=
  C8_new_discards_value_on_error 0 7 4 (GoErr.errorString "boom") _ rfl

/-- **C9.** `Done()` returns the promise's own completion channel (so
repeated calls return the identical handle), and for promises built by
`Resolve` or `Reject` that handle is the package-level `closedChan`,
which is closed, so receiving from it never blocks. -/
theorem C9_done_stable_closedChan {T : Type} (v z : T) (e : GoErr) :
    (∀ p : Promise T, p.Done = p.done) ∧
    (Resolve v).Done = closedChan ∧
    (Reject z e).Done = closedChan ∧
    closedChan.closed = true ∧
    closedChan.recvBlocks = false := by
  exact ⟨fun _ => rfl, rfl, rfl, rfl, rfl⟩

/-!
## `Race` and `All`

Both spawn one observer goroutine per input which waits on that input's
completion channel and then sends the input's *index* into a shared
buffered channel (capacity = number of inputs, so no observer ever
blocks on send). The successive values the composing task reads from
that channel are the explicit parameter `order : List Nat`: the input
indices in wall-clock completion order. Each input promise appears at
its terminal state, as in `Then`.
-/

/-- The body of the goroutine spawned inside `Race`: `idx := <-ch;
return promises[idx].value, promises[idx].err`. `none` models the
composing task blocked forever on a channel nobody will send to (empty
`order`); an out-of-range index would panic in Go and cannot arise from
the observers. -/
def raceTask {T : Type} (ps : List (Promise T)) (order : List Nat) :
    Option (T × Option GoErr) :=
  match order with
  | [] => none
  | idx :: _ => (ps[idx]?).map (fun p => (p.value, p.err))

/-- `func Race[T any](promises ...*Promise[T]) *Promise[T]`: a promise
built by `New` around `raceTask`. When the task never returns (empty
`order`), the promise stays at its pending initial state forever. -/
def Race {T : Type} (z : T) (chId : Nat) (ps : List (Promise T))
    (order : List Nat) : Promise T :=
  match raceTask ps order with
  | some r => runTask (newPromiseInit z chId) (fun _ => r)
  | none => newPromiseInit z chId

/-- The receive loop of `All`: for each successive index read from the
channel, `Await` that input; a non-nil error returns `(nil, err)` at
once, otherwise the value is stored at the input's own index in
`results`. After all inputs have reported, returns `(results, nil)`.
The Go nil slice is `none`; `(none, none)` marks the impossible
out-of-range panic. -/
def allLoop {T : Type} (ps : List (Promise T)) (order : List Nat)
    (results : List T) : Option (List T) × Option GoErr :=
  match order with
  | [] => (some results, none)
  | idx :: rest =>
    match ps[idx]? with
    | none => (none, none)
    | some p =>
      match p.err with
      | some e => (none, some e)
      | none => allLoop ps rest (results.set idx p.value)

/-- `func All[T any](promises ...*Promise[T]) *Promise[[]T]`: a promise
built by `New` around the receive loop, with `results` zero-initialized
by `make([]T, len(promises))` to `len(promises)` copies of the zero
value. The outer promise's zero value is the nil slice `none`. -/
def All {T : Type} (z : T) (chId : Nat) (ps : List (Promise T))
    (order : List Nat) : Promise (Option (List T)) :=
  New none chId (fun _ => allLoop ps order (List.replicate ps.length z))

/-- The invariant every promise reachable through the package API
satisfies: a non-nil cached error implies the cached value is the zero
value. -/
def Promise.WF {T : Type} (z : T) (p : Promise T) : Prop :=
  ∀ e, p.err = some e → p.value = z

/-!
## Claims C4 and C10
-/

/-- **C4.** When the shared channel first delivers index `idx` — the
input that completed first — `Race` completes with that input's cached
value and error (for any input satisfying the package invariant that a
rejected promise caches the zero value); the concrete instance of the
claim, `Race` over `[Resolve 1, pending]` with the resolved input
reporting first, is the witness. -/
theorem C4_race_first_completion {T : Type} (z : T) (chId : Nat)
    (ps : List (Promise T)) (order rest : List Nat) (idx : Nat) (w : Promise T)
    (horder : order = idx :: rest) (hw : ps[idx]? = some w) (hwf : w.WF z) :
    (Race z chId ps order).await = (w.value, w.err) := by
  subst horder
  have htask : raceTask ps (idx :: rest) =
      (ps[idx]?).map (fun p => (p.value, p.err)) := rfl
  obtain ⟨wv, we, wfin, wdone⟩ := w
  rcases we with _ | e
  · unfold Race
    rw [htask, hw]
    rfl
  · have hz : wv = z := hwf e rfl
    subst hz
    unfold Race
    rw [htask, hw]
    rfl

/-- Witness for C4: one input already resolved with 1, the other still
pending; the resolved input reports first and `Race` awaits to
`(1, nil)`. -/
theorem C4_race_first_completion_witness :
    (Race (0 : Nat) 9 [Resolve 1, newPromiseInit 0 5] [0]).await = (1, none) :=
  C4_race_first_completion 0 9 [Resolve 1, newPromiseInit 0 5] [0] [] 0
    (Resolve 1) rfl rfl (fun e he => by cases he)

/-- **C10.** For the empty input list no observer goroutine exists, so
no index is ever sent on the channel (any delivered order over in-range
indices is empty); the composing task blocks forever on the receive and
`Race()`'s promise stays pending: it never finishes and `Await` on it
blocks forever. -/
theorem C10_race_empty_never_completes {T : Type} (z : T) (chId : Nat)
    (order : List Nat)
    (horder : ∀ i ∈ order, i < ([] : List (Promise T)).length) :
    (Race z chId ([] : List (Promise T)) order).finished = false ∧
    (Race z chId ([] : List (Promise T)) order).awaitBlocks = true := by
  have horder0 : order = [] := by
    cases order with
    | nil => rfl
    | cons i rest => exact absurd (horder i (List.mem_cons_self i rest)) (by simp)
  subst horder0
  exact ⟨rfl, rfl⟩

/-- Witness for C10 at the empty order. -/
theorem C10_race_empty_never_completes_witness :
    (Race (0 : Nat) 3 ([] : List (Promise Nat)) []).finished = false ∧
    (Race (0 : Nat) 3 ([] : List (Promise Nat)) []).awaitBlocks = true :=
  C10_race_empty_never_completes 0 3 [] (by simp)


/-!
## Claims C5 and C6
-/

/-- Evaluating `New` when the task body returns a nil error: the spawned
task resolves the pending promise with the returned value. -/
theorem New_eval_ok {T : Type} (z : T) (chId : Nat) (fn : Unit → T × Option GoErr)
    (v : T) (h : fn () = (v, none)) :
    New z chId fn = (newPromiseInit z chId).resolve v := by
  unfold New runTask
  rw [h]

/-- Evaluating `New` when the task body returns a non-nil error: the
spawned task rejects the pending promise with the returned error. -/
theorem New_eval_err {T : Type} (z : T) (chId : Nat) (fn : Unit → T × Option GoErr)
    (v : T) (e : GoErr) (h : fn () = (v, some e)) :
    New z chId fn = (newPromiseInit z chId).reject e := by
  unfold New runTask
  rw [h]

/-- One iteration of `All`'s receive loop on a successfully completed
input: the input's value is stored at its own index and the loop
continues. -/
theorem allLoop_cons_ok {T : Type} (ps : List (Promise T)) (i : Nat) (rest : List Nat)
    (acc : List T) (p : Promise T) (hp : ps[i]? = some p) (hperr : p.err = none) :
    allLoop ps (i :: rest) acc = allLoop ps rest (acc.set i p.value) := by
  have h0 : allLoop ps (i :: rest) acc =
      (match ps[i]? with
       | none => ((none : Option (List T)), (none : Option GoErr))
       | some p =>
         match p.err with
         | some e => (none, some e)
         | none => allLoop ps rest (acc.set i p.value)) := rfl
  rw [h0, hp]
  obtain ⟨pv, pe, pf, pd⟩ := p
  cases pe with
  | none => rfl
  | some e => cases hperr

/-- One iteration of `All`'s receive loop on a rejected input: the loop
returns the nil slice and that input's error at once. -/
theorem allLoop_cons_err {T : Type} (ps : List (Promise T)) (i : Nat) (rest : List Nat)
    (acc : List T) (p : Promise T) (e : GoErr) (hp : ps[i]? = some p)
    (hperr : p.err = some e) :
    allLoop ps (i :: rest) acc = (none, some e) := by
  have h0 : allLoop ps (i :: rest) acc =
      (match ps[i]? with
       | none => ((none : Option (List T)), (none : Option GoErr))
       | some p =>
         match p.err with
         | some e => (none, some e)
         | none => allLoop ps rest (acc.set i p.value)) := rfl
  rw [h0, hp]
  obtain ⟨pv, pe, pf, pd⟩ := p
  cases pe with
  | none => cases hperr
  | some e0 =>
    cases hperr
    rfl

/-- Running `All`'s receive loop over a duplicate-free list of in-range
indices of inputs that all completed without error: the loop finishes
with a nil error and a results slice holding, at each received index,
that input's value, and elsewhere the initial contents. -/
theorem allLoop_success {T : Type} (ps : List (Promise T))
    (hok : ∀ p ∈ ps, p.err = none) :
    ∀ (order : List Nat) (acc : List T),
      (∀ i ∈ order, i < ps.length) →
      order.Nodup →
      acc.length = ps.length →
      ∃ res, allLoop ps order acc = (some res, none) ∧
        res.length = ps.length ∧
        (∀ j, j ∈ order → res[j]? = (ps[j]?).map Promise.value) ∧
        (∀ j, j ∉ order → res[j]? = acc[j]?) := by
  intro order
  induction order with
  | nil =>
    intro acc _ _ hlen
    exact ⟨acc, rfl, hlen, by simp, fun j _ => rfl⟩
  | cons i rest ih =>
    intro acc hlt hnd hlen
    have hi : i < ps.length := hlt i (List.mem_cons_self i rest)
    have hget : ps[i]? = some ps[i] := List.getElem?_eq_getElem hi
    have herr : ps[i].err = none := hok _ (List.getElem?_mem hget)
    have hinotrest : i ∉ rest := (List.nodup_cons.mp hnd).1
    have hndrest : rest.Nodup := (List.nodup_cons.mp hnd).2
    have hlen2 : (acc.set i (ps[i].value)).length = ps.length := by
      rw [List.length_set]
      exact hlen
    obtain ⟨res, hres, hreslen, hmem, hnotmem⟩ :=
      ih (acc.set i (ps[i].value))
        (fun j hj => hlt j (List.mem_cons_of_mem i hj)) hndrest hlen2
    refine ⟨res, ?_, hreslen, ?_, ?_⟩
    · rw [allLoop_cons_ok ps i rest acc (ps[i]) hget herr]
      exact hres
    · intro j hj
      rcases List.mem_cons.mp hj with hji | hjrest
      · subst hji
        rw [hnotmem j hinotrest, List.getElem?_set_self (hlen ▸ hi), hget]
        rfl
      · exact hmem j hjrest
    · intro j hj
      have hji : j ≠ i := fun h => hj (h ▸ List.mem_cons_self i rest)
      have hjrest : j ∉ rest := fun h => hj (List.mem_cons_of_mem i h)
      rw [hnotmem j hjrest, List.getElem?_set_ne (fun h => hji h.symm)]

/-- **C5.** When every input promise completed without error and every
input's observer has reported (the received order is a permutation of
the input indices), `All` awaits to the slice of input values aligned to
input order — whatever the completion order was — and a nil error. -/
theorem C5_all_preserves_input_order {T : Type} (z : T) (chId : Nat)
    (ps : List (Promise T)) (order : List Nat)
    (hperm : order.Perm (List.range ps.length))
    (hok : ∀ p ∈ ps, p.err = none) :
    (All z chId ps order).await = (some (ps.map Promise.value), none) := by
  have hlt : ∀ i ∈ order, i < ps.length := by
    intro i hi
    exact List.mem_range.mp (hperm.mem_iff.mp hi)
  have hnd : order.Nodup := hperm.nodup_iff.mpr (List.nodup_range ps.length)
  obtain ⟨res, hres, hreslen, hmem, _⟩ :=
    allLoop_success ps hok order (List.replicate ps.length z) hlt hnd
      (List.length_replicate ps.length z)
  have hresval : res = ps.map Promise.value := by
    apply List.ext_getElem?
    intro n
    by_cases hn : n < ps.length
    · rw [hmem n (hperm.mem_iff.mpr (List.mem_range.mpr hn)), List.getElem?_map]
    · rw [List.getElem?_eq_none (by rw [hreslen]; exact Nat.le_of_not_lt hn),
        List.getElem?_eq_none (by rw [List.length_map]; exact Nat.le_of_not_lt hn)]
  unfold All
  rw [New_eval_ok _ _ _ (some res) (by rw [hres]), hresval]
  rfl

/-- Witness for C5: inputs resolved with 42 and 55, completing in
reverse order; `All` still awaits to `[42, 55]`. -/
theorem C5_all_preserves_input_order_witness :
    (All (0 : Nat) 8 [Resolve 42, Resolve 55] [1, 0]).await =
      (some [42, 55], none) :=
  C5_all_preserves_input_order 0 8 [Resolve 42, Resolve 55] [1, 0]
    (by decide) (by decide)

/-- The receive loop over a prefix of successfully completed inputs
followed by a rejected input: the loop stops with `(nil, that error)`
and never touches whatever indices would have been received later. -/
theorem allLoop_fail_fast {T : Type} (ps : List (Promise T)) (idx : Nat)
    (p : Promise T) (e : GoErr) (hidx : ps[idx]? = some p) (he : p.err = some e) :
    ∀ (pre post : List Nat) (acc : List T),
      (∀ i ∈ pre, ∃ q, ps[i]? = some q ∧ q.err = none) →
      allLoop ps (pre ++ idx :: post) acc = (none, some e) := by
  intro pre
  induction pre with
  | nil =>
    intro post acc _
    exact allLoop_cons_err ps idx post acc p e hidx he
  | cons i rest ih =>
    intro post acc hpre
    obtain ⟨q, hq, hqerr⟩ := hpre i (List.mem_cons_self i rest)
    rw [List.cons_append, allLoop_cons_ok ps i (rest ++ idx :: post) acc q hq hqerr]
    exact ih post (acc.set i q.value)
      (fun j hj => hpre j (List.mem_cons_of_mem i hj))

/-- **C6.** When the inputs received before some point all completed
without error and the next received input is rejected with `e`, `All`
awaits to the nil slice and `e`; moreover the promise `All` builds is
identical whatever indices would have been received afterwards — the
loop returns upon the first observed rejection without waiting for the
remaining inputs. -/
theorem C6_all_fail_fast {T : Type} (z : T) (chId : Nat) (ps : List (Promise T))
    (pre post : List Nat) (idx : Nat) (p : Promise T) (e : GoErr)
    (hpre : ∀ i ∈ pre, ∃ q, ps[i]? = some q ∧ q.err = none)
    (hidx : ps[idx]? = some p) (he : p.err = some e) :
    (All z chId ps (pre ++ idx :: post)).await = (none, some e) ∧
    All z chId ps (pre ++ idx :: post) = All z chId ps (pre ++ [idx]) := by
  have h1 : allLoop ps (pre ++ idx :: post) (List.replicate ps.length z) =
      (none, some e) :=
    allLoop_fail_fast ps idx p e hidx he pre post (List.replicate ps.length z) hpre
  have h2 : allLoop ps (pre ++ [idx]) (List.replicate ps.length z) =
      (none, some e) :=
    allLoop_fail_fast ps idx p e hidx he pre [] (List.replicate ps.length z) hpre
  constructor
  · unfold All
    rw [New_eval_err _ _ _ none e (by rw [h1])]
    rfl
  · unfold All
    rw [New_eval_err _ _ _ none e (by rw [h1]),
      New_eval_err _ _ _ none e (by rw [h2])]

/-- Witness for C6: the second input is rejected and is observed after
the first succeeded; `All` awaits to `(nil, blerg)` and ignores the
third input entirely. -/
theorem C6_all_fail_fast_witness :
    (All (0 : Nat) 6 [Resolve 1, Reject 0 (GoErr.errorString "blerg"), Resolve 2]
        ([0] ++ 1 :: [2])).await = (none, some (GoErr.errorString "blerg")) ∧
    All (0 : Nat) 6 [Resolve 1, Reject 0 (GoErr.errorString "blerg"), Resolve 2]
        ([0] ++ 1 :: [2]) =
      All (0 : Nat) 6 [Resolve 1, Reject 0 (GoErr.errorString "blerg"), Resolve 2]
        ([0] ++ [1]) :=
  C6_all_fail_fast 0 6 [Resolve 1, Reject 0 (GoErr.errorString "blerg"), Resolve 2]
    [0] [2] 1 (Reject 0 (GoErr.errorString "blerg")) (GoErr.errorString "blerg")
    (by decide) rfl rfl
